import Mathlib

/-!
Verification of `rbxbuild` (rojo-build-lite, `src/main.rs`): a tool that
converts a Rojo-style JSON project description into a typed Roblox instance
tree and serializes it to XML.

The file embeds the data model and the tree-building pipeline of
`src/main.rs` shallowly in Lean.  The value-resolution module
(`mod resolution`, file `resolution.rs`) is not part of the sources, so its
two entry points (`resolve`, `resolve_unambiguous`) and the supporting
schema catalog are modelled from the specification, each marked
`Modelled from the spec:` in its doc comment.  Everything else is a direct
translation of `main.rs`.
-/

namespace RbxBuild

/-- Modelled from the spec: `RawValue`, the tagged union of shapes producible
by the input format (JSON): Null, Bool, Number, String, Sequence of numbers,
Sequence of strings, Mapping.  Numbers are modelled as rationals. -/
inductive RawValue where
  | null : RawValue
  | bool (b : Bool) : RawValue
  | num (q : ℚ) : RawValue
  | str (s : String) : RawValue
  | seqNum (xs : List ℚ) : RawValue
  | seqStr (xs : List String) : RawValue
  | mapping (m : List (String × RawValue)) : RawValue
deriving Repr

/-- Modelled from the spec: `PropertyType`, the enumerated target type a
schema entry declares for a (class, property) pair. -/
inductive PropertyType where
  | bool : PropertyType
  | integer (width : ℕ) : PropertyType
  | float : PropertyType
  | string : PropertyType
  | vector3 : PropertyType
  | color3 : PropertyType
  | rotation : PropertyType
  | enumToken (enumName : String) : PropertyType
  | reference : PropertyType
deriving Repr, DecidableEq

/-- Modelled from the spec: `ResolvedValue` (the `Variant` type of the dom crate), the
typed value attached to an instance property after resolution.  Color3
channels are integers 0–255; the rotation basis is 9 numbers, row-major. -/
inductive Variant where
  | bool (b : Bool) : Variant
  | int (n : ℤ) : Variant
  | float (q : ℚ) : Variant
  | str (s : String) : Variant
  | vector3 (x y z : ℚ) : Variant
  | color3 (r g b : ℕ) : Variant
  | rotation (px py pz : ℚ) (basis : List ℚ) : Variant
  | enumToken (id : ℕ) : Variant
  | reference (target : Option String) : Variant
deriving Repr, DecidableEq

/-- Modelled from the spec: the per-property error taxonomy of the
value resolver. -/
inductive ResolutionError where
  | unknownProperty : ResolutionError
  | typeMismatch : ResolutionError
  | numericOverflow : ResolutionError
  | unknownEnumValue : ResolutionError
  | notUnambiguous : ResolutionError
deriving Repr, DecidableEq

/-- Modelled from the spec: `SchemaCatalog.lookup (class, property)`.
The real table is the external `rbx_reflection` database (out of scope per
the spec, a pure lookup table); this is a representative fragment covering
the classes and properties exercised by the test suite of the repository. -/
def schemaLookup (className propName : String) : Option PropertyType :=
  match className, propName with
  | "Part", "Anchored" => some .bool
  | "Part", "Transparency" => some .float
  | "Part", "Size" => some .vector3
  | "Part", "Color" => some .color3
  | "Part", "CFrame" => some .rotation
  | "Part", "Material" => some (.enumToken "Material")
  | "Script", "Source" => some .string
  | "ObjectValue", "Value" => some .reference
  | _, _ => none

/-- Modelled from the spec: the enum tables consulted for
`String + EnumToken` resolution; a representative fragment. -/
def enumLookup (enumName itemName : String) : Option ℕ :=
  match enumName, itemName with
  | "Material", "Plastic" => some 256
  | "Material", "Grass" => some 1280
  | _, _ => none

/-- Clamp a rational to the unit interval `[0, 1]`. -/
def clamp01 (q : ℚ) : ℚ := max 0 (min 1 q)

/-- Round half away from zero: `0.5 ↦ 1`, `-0.5 ↦ -1`. -/
def roundHalfAway (q : ℚ) : ℤ :=
  if 0 ≤ q then ⌊q + 1/2⌋ else ⌈q - 1/2⌉

/-- Modelled from the spec: quantization of one Color3 channel —
`round(clamp(v,0,1) × 255)` with round-half-away-from-zero. -/
def color3Channel (q : ℚ) : ℕ := (roundHalfAway (clamp01 q * 255)).toNat

/-- Modelled from the spec: `resolveUnambiguous`, the schema-free path.
Succeeds only for the single-interpretation shapes Bool → Bool,
Number → numeric, String → Text; every other shape fails with
`NotUnambiguous`. -/
def resolve_unambiguous (raw : RawValue) : Except ResolutionError Variant :=
  match raw with
  | .bool b => .ok (.bool b)
  | .num q => .ok (.float q)
  | .str s => .ok (.str s)
  | _ => .error .notUnambiguous

/-- Modelled from the spec: `ValueResolver.resolve` — looks up the declared
`PropertyType` for `(class, property)` and dispatches on
(declared type, raw shape); any unlisted pairing is a `TypeMismatch`.
The pending-reference registration side effect of the Reference branch is
not modelled (no claim concerns it); the branch returns the unresolved
placeholder the spec describes. -/
def resolve (raw : RawValue) (className propName : String) :
    Except ResolutionError Variant :=
  match schemaLookup className propName with
  | none => .error .unknownProperty
  | some pt =>
    match pt, raw with
    | .bool, .bool b => .ok (.bool b)
    | .integer w, .num q =>
        if q.den = 1 ∧ -(2 ^ (w - 1) : ℤ) ≤ q.num ∧ q.num < 2 ^ (w - 1) then
          .ok (.int q.num)
        else .error .numericOverflow
    | .float, .num q => .ok (.float q)
    | .string, .str s => .ok (.str s)
    | .enumToken en, .str s =>
        match enumLookup en s with
        | some id => .ok (.enumToken id)
        | none => .error .unknownEnumValue
    | .vector3, .seqNum [x, y, z] => .ok (.vector3 x y z)
    | .color3, .seqNum [r, g, b] =>
        .ok (.color3 (color3Channel r) (color3Channel g) (color3Channel b))
    | .rotation, .seqNum [a, b, c, r0, r1, r2, r3, r4, r5, r6, r7, r8] =>
        .ok (.rotation a b c [r0, r1, r2, r3, r4, r5, r6, r7, r8])
    | .reference, .str s => .ok (.reference (some s))
    | _, _ => .error .typeMismatch

/-- `ProjectNode` from `main.rs`: optional `$className`, a `$properties`
map, and the remaining keys as named children.  The Rust fields are
`HashMap`s; they are embedded as association lists whose order stands for
the (unspecified) iteration order of the hash map, with distinct keys. -/
inductive ProjectNode where
  | mk (class_name : Option String)
       (properties : List (String × RawValue))
       (children : List (String × ProjectNode)) : ProjectNode

/-- The `$className` field of a node. -/
def ProjectNode.class_name : ProjectNode → Option String
  | .mk c _ _ => c

/-- The `$properties` field of a node. -/
def ProjectNode.properties : ProjectNode → List (String × RawValue)
  | .mk _ p _ => p

/-- The flattened child map of a node. -/
def ProjectNode.children : ProjectNode → List (String × ProjectNode)
  | .mk _ _ k => k

/-- `Project` from `main.rs`: optional `name` plus the root `tree` node. -/
structure Project where
  name : Option String
  tree : ProjectNode

/-- `rbx_dom_weak::InstanceBuilder` (external container, simple data):
a class, a name, attached properties and children. -/
structure InstanceBuilder where
  class_name : String
  name : String
  props : List (String × Variant)
  children : List InstanceBuilder
deriving Repr

/-- `InstanceBuilder::new(class)`: name defaults to the class name. -/
def InstanceBuilder.new (className : String) : InstanceBuilder :=
  ⟨className, className, [], []⟩

/-- `InstanceBuilder::with_name`. -/
def InstanceBuilder.with_name (b : InstanceBuilder) (n : String) :
    InstanceBuilder := { b with name := n }

/-- `InstanceBuilder::with_property`: appends a property. -/
def InstanceBuilder.with_property (b : InstanceBuilder) (k : String)
    (v : Variant) : InstanceBuilder := { b with props := b.props ++ [(k, v)] }

/-- `InstanceBuilder::with_child`: appends a child. -/
def InstanceBuilder.with_child (b c : InstanceBuilder) : InstanceBuilder :=
  { b with children := b.children ++ [c] }

/-- A diagnostic written to stderr by `instantiate_node`: either the
per-property warning (class, property, reason) or the per-child warning. -/
inductive Warning where
  | propertyFailed (className propName : String) (reason : ResolutionError)
  | childFailed (childName : String) (msg : String)
deriving Repr, DecidableEq

/-- `infer_class_from_name` from `main.rs`: the static table of well-known
service names. -/
def infer_class_from_name (name : String) : Option String :=
  match name with
  | "Workspace" => some "Workspace"
  | "Players" => some "Players"
  | "Lighting" => some "Lighting"
  | "ReplicatedFirst" => some "ReplicatedFirst"
  | "ReplicatedStorage" => some "ReplicatedStorage"
  | "ServerScriptService" => some "ServerScriptService"
  | "ServerStorage" => some "ServerStorage"
  | "StarterGui" => some "StarterGui"
  | "StarterPack" => some "StarterPack"
  | "StarterPlayer" => some "StarterPlayer"
  | "Teams" => some "Teams"
  | "SoundService" => some "SoundService"
  | "Chat" => some "Chat"
  | "LocalizationService" => some "LocalizationService"
  | "TestService" => some "TestService"
  | _ => none

/-- The `Name`-override lookup in `instantiate_node`: the `Name` entry of
the property map, passed through `resolve_unambiguous`, kept only when the
result is a `String` variant. -/
def instance_name_override (props : List (String × RawValue)) :
    Option String :=
  (props.lookup "Name").bind fun v =>
    match resolve_unambiguous v with
    | .ok (.str s) => some s
    | _ => none

/-- The property loop of `instantiate_node`: skips `"Name"`, attaches each
successfully resolved property, and records a warning for each
`ResolutionError`, continuing with the rest. -/
def addProps (className : String) :
    List (String × RawValue) → InstanceBuilder → List Warning →
    InstanceBuilder × List Warning
  | [], b, ws => (b, ws)
  | (key, unresolved) :: rest, b, ws =>
    if key = "Name" then
      addProps className rest b ws
    else
      match resolve unresolved className key with
      | .ok variant => addProps className rest (b.with_property key variant) ws
      | .error e =>
          addProps className rest b (ws ++ [.propertyFailed className key e])

mutual
/-- `instantiate_node` from `main.rs`: determines the effective class
(explicit `$className`, else `infer_class_from_name`, else `"Folder"`),
the effective name (`Name` property override, else the structural key),
resolves the remaining properties, recurses into the children, and returns
the builder.  Warnings (stderr in the Rust code) are returned alongside. -/
def instantiate_node (node : ProjectNode) (name : String) :
    Except String (InstanceBuilder × List Warning) :=
  match node with
  | .mk cn props kids =>
    let className := match cn with
      | some c => c
      | none => (infer_class_from_name name).getD "Folder"
    let instanceName := (instance_name_override props).getD name
    let b0 := (InstanceBuilder.new className).with_name instanceName
    let (b1, ws1) := addProps className props b0 []
    .ok (instantiate_children kids b1 ws1)

/-- The child loop of `instantiate_node`: each child that instantiates
successfully is attached; a failing child yields a warning and the
remaining siblings continue. -/
def instantiate_children :
    List (String × ProjectNode) → InstanceBuilder → List Warning →
    InstanceBuilder × List Warning
  | [], b, ws => (b, ws)
  | (childName, childNode) :: rest, b, ws =>
    match instantiate_node childNode childName with
    | .ok (cb, cws) => instantiate_children rest (b.with_child cb) (ws ++ cws)
    | .error e =>
        instantiate_children rest b (ws ++ [.childFailed childName e])
end

/-- `instantiate` from `main.rs`: builds the root instance (the
`WeakDom::new` wrapper adds nothing to the data we model). -/
def instantiate (node : ProjectNode) (instanceName : String) :
    Except String (InstanceBuilder × List Warning) :=
  instantiate_node node instanceName

/-- The top-level selection in `main`: if the class of the resolved root is
`"DataModel"`, the encoder receives the direct children of the root as top-level
siblings; otherwise it receives the root itself. -/
def ids_to_write (root : InstanceBuilder) : List InstanceBuilder :=
  if root.class_name = "DataModel" then root.children else [root]

/-- The process environment `main` consumes: the optional first
command-line argument, whether stdin is a terminal, and the piped stdin
text. -/
structure CliEnv where
  arg : Option String
  stdinIsTerminal : Bool
  stdinContent : String

/-- The input-acquisition step of `main`: the first argument if present,
else piped stdin when stdin is not a terminal, else nothing. -/
def get_input (env : CliEnv) : Option String :=
  match env.arg with
  | some a => some a
  | none => if env.stdinIsTerminal then none else some env.stdinContent

/-- One top-level stage invocation of the pipeline in `main`:
`serde_json::from_str`, `instantiate`, a reference-resolution finalize
pass (never present in the source), and `to_writer_default`. -/
inductive BuildEvent where
  | parserInvoked : BuildEvent
  | instantiateInvoked : BuildEvent
  | finalizeInvoked : BuildEvent
  | encoderInvoked : BuildEvent
deriving Repr, DecidableEq

/-- First stderr line of the missing-input branch of `main`. -/
def noInputMsg : String :=
  "Error: No input provided. Please provide JSON as an argument or pipe it to stdin."

/-- Second stderr line of the missing-input branch of `main` (quotes of the
original message dropped). -/
def usageMsg : String :=
  "Usage: rojo-build-lite <json> or echo <json> | rojo-build-lite"

/-- Stderr line of the empty-input branch of `main`. -/
def emptyMsg : String := "Error: Empty input provided."

/-- The `json_input.trim().is_empty()` test of `main`, expressed as
"every character is whitespace" (the two are equivalent, and this form
is directly computable). -/
def is_blank (s : String) : Bool := s.toList.all Char.isWhitespace

/-- Observable outcome of one run of `main`: process exit code, the fixed
stderr diagnostics, the per-property warnings, the list of instances handed
to the encoder (none when encoding was never reached), and the trace of
invoked pipeline stages. -/
structure RunResult where
  exit_code : ℕ
  stderr : List String
  warnings : List Warning
  encoded : Option (List InstanceBuilder)
  events : List BuildEvent

/-- `main` from `main.rs`, parameterized by its two external collaborators:
the JSON parser (`serde_json::from_str` into `Project`) and the XML
encoding stage (`to_writer_default` followed by `String::from_utf8`, both
fallible; their `?` error paths are merged into one `Except`).  It
acquires input, rejects missing or blank input with exit code 1, parses,
instantiates, and hands `ids_to_write` of the root to the encoder.  Any
`Err` bubbling to `main` exits nonzero with the error on stderr. -/
def main_run (parse : String → Except String Project)
    (encode : List InstanceBuilder → Except String String)
    (env : CliEnv) : RunResult :=
  match get_input env with
  | none => ⟨1, [noInputMsg, usageMsg], [], none, []⟩
  | some input =>
    if is_blank input then ⟨1, [emptyMsg], [], none, []⟩
    else
      match parse input with
      | .error e => ⟨1, [e], [], none, [.parserInvoked]⟩
      | .ok project =>
        match instantiate project.tree (project.name.getD "ROOT") with
        | .error e => ⟨1, [e], [], none, [.parserInvoked, .instantiateInvoked]⟩
        | .ok (root, ws) =>
          match encode (ids_to_write root) with
          | .error e =>
            ⟨1, [e], ws, some (ids_to_write root),
              [.parserInvoked, .instantiateInvoked, .encoderInvoked]⟩
          | .ok _ =>
            ⟨0, [], ws, some (ids_to_write root),
              [.parserInvoked, .instantiateInvoked, .encoderInvoked]⟩

/-- The generic-property entries the property loop attaches for a given
class and property list: every non-`"Name"` entry whose resolution
succeeds, in order. -/
def resolvedProps (c : String) (l : List (String × RawValue)) :
    List (String × Variant) :=
  l.filterMap fun kv =>
    if kv.1 = "Name" then none
    else
      match resolve kv.2 c kv.1 with
      | .ok v => some (kv.1, v)
      | .error _ => none

/-- The warnings the property loop emits for a given class and property
list: one per non-`"Name"` entry whose resolution fails, in order. -/
def propWarnings (c : String) (l : List (String × RawValue)) :
    List Warning :=
  l.filterMap fun kv =>
    if kv.1 = "Name" then none
    else
      match resolve kv.2 c kv.1 with
      | .ok _ => none
      | .error e => some (.propertyFailed c kv.1 e)

/-- The effective name `instantiate_node` gives a node: the resolved
`Name`-property override when present, else the structural key. -/
def effective_name (node : ProjectNode) (key : String) : String :=
  (instance_name_override node.properties).getD key

/-- Whether a warning is the per-child failure warning. -/
def Warning.isChildFailed : Warning → Bool
  | .childFailed _ _ => true
  | _ => false

/-- Whether a warning is a per-property warning about property `p`. -/
def Warning.concernsProp (w : Warning) (p : String) : Bool :=
  match w with
  | .propertyFailed _ pn _ => pn = p
  | _ => false

/-- The effective class `instantiate_node` gives a node: the explicit
`$className`, else the name-inference table entry for the structural
key, else `"Folder"`. -/
def effective_class (node : ProjectNode) (key : String) : String :=
  node.class_name.getD ((infer_class_from_name key).getD "Folder")

/-! Structural lemmas about the builder. -/

theorem instantiate_node_isOk (node : ProjectNode) (name : String) :
    ∃ p, instantiate_node node name = .ok p := by
  cases node with
  | mk cn props kids => exact ⟨_, rfl⟩

theorem addProps_spec (c : String) (l : List (String × RawValue))
    (b : InstanceBuilder) (ws : List Warning) :
    addProps c l b ws =
      ({ b with props := b.props ++ resolvedProps c l },
       ws ++ propWarnings c l) := by
  induction l generalizing b ws with
  | nil => cases b; simp [addProps, resolvedProps, propWarnings]
  | cons kv rest ih =>
    obtain ⟨k, v⟩ := kv
    by_cases hk : k = "Name"
    · simp [addProps, resolvedProps, propWarnings, hk, ih]
    · cases hr : resolve v c k with
      | ok variant =>
        simp [addProps, resolvedProps, propWarnings, hk, hr, ih,
          InstanceBuilder.with_property]
      | error e =>
        simp [addProps, resolvedProps, propWarnings, hk, hr, ih]

theorem instantiate_children_spec (kids : List (String × ProjectNode))
    (b : InstanceBuilder) (ws : List Warning) :
    (instantiate_children kids b ws).1.class_name = b.class_name ∧
    (instantiate_children kids b ws).1.name = b.name ∧
    (instantiate_children kids b ws).1.props = b.props ∧
    (instantiate_children kids b ws).1.children.length
      = b.children.length + kids.length ∧
    ∃ extra, (instantiate_children kids b ws).2 = ws ++ extra := by
  induction kids generalizing b ws with
  | nil => simp [instantiate_children]
  | cons kv rest ih =>
    obtain ⟨cname, cnode⟩ := kv
    obtain ⟨⟨cb, cws⟩, hok⟩ := instantiate_node_isOk cnode cname
    obtain ⟨h1, h2, h3, h4, extra, h5⟩ := ih (b.with_child cb) (ws ++ cws)
    refine ⟨?_, ?_, ?_, ?_, ?_⟩
    · simp only [instantiate_children, hok]
      simpa [InstanceBuilder.with_child] using h1
    · simp only [instantiate_children, hok]
      simpa [InstanceBuilder.with_child] using h2
    · simp only [instantiate_children, hok]
      simpa [InstanceBuilder.with_child] using h3
    · simp only [instantiate_children, hok]
      have hw : (b.with_child cb).children.length = b.children.length + 1 := by
        simp [InstanceBuilder.with_child]
      rw [hw] at h4
      simp only [List.length_cons]
      omega
    · simp only [instantiate_children, hok]
      exact ⟨cws ++ extra, by simp [h5]⟩

theorem instantiate_node_eq (c nm : String) (props : List (String × RawValue))
    (kids : List (String × ProjectNode)) :
    instantiate_node (.mk (some c) props kids) nm =
      .ok (instantiate_children kids
        (addProps c props ((InstanceBuilder.new c).with_name
          ((instance_name_override props).getD nm)) []).1
        (addProps c props ((InstanceBuilder.new c).with_name
          ((instance_name_override props).getD nm)) []).2) := rfl

theorem instantiate_node_eq_none (nm : String)
    (props : List (String × RawValue))
    (kids : List (String × ProjectNode)) :
    instantiate_node (.mk none props kids) nm =
      instantiate_node
        (.mk (some ((infer_class_from_name nm).getD "Folder")) props kids)
        nm := rfl

theorem instantiate_node_spec_some (c nm : String)
    (props : List (String × RawValue)) (kids : List (String × ProjectNode))
    (b : InstanceBuilder) (ws : List Warning)
    (h : instantiate_node (.mk (some c) props kids) nm = .ok (b, ws)) :
    b.class_name = c ∧
    b.name = (instance_name_override props).getD nm ∧
    b.props = resolvedProps c props ∧
    b.children.length = kids.length ∧
    ∃ extra, ws = propWarnings c props ++ extra := by
  rw [instantiate_node_eq] at h
  set B0 := (InstanceBuilder.new c).with_name
    ((instance_name_override props).getD nm) with hB0
  have h' := Except.ok.inj h
  have hb : (instantiate_children kids (addProps c props B0 []).1
      (addProps c props B0 []).2).1 = b := congrArg Prod.fst h'
  have hw : (instantiate_children kids (addProps c props B0 []).1
      (addProps c props B0 []).2).2 = ws := congrArg Prod.snd h'
  have hA := addProps_spec c props B0 []
  have hA1 := congrArg Prod.fst hA
  have hA2 := congrArg Prod.snd hA
  obtain ⟨s1, s2, s3, s4, extra, s5⟩ := instantiate_children_spec kids
    (addProps c props B0 []).1 (addProps c props B0 []).2
  refine ⟨?_, ?_, ?_, ?_, ⟨extra, ?_⟩⟩
  · rw [← hb, s1, hA1]
    simp [hB0, InstanceBuilder.new, InstanceBuilder.with_name]
  · rw [← hb, s2, hA1]
    simp [hB0, InstanceBuilder.new, InstanceBuilder.with_name]
  · rw [← hb, s3, hA1]
    simp [hB0, InstanceBuilder.new, InstanceBuilder.with_name]
  · rw [← hb, s4, hA1]
    simp [hB0, InstanceBuilder.new, InstanceBuilder.with_name]
  · rw [← hw, s5, hA2]
    simp

theorem instantiate_node_spec (node : ProjectNode) (name : String)
    (b : InstanceBuilder) (ws : List Warning)
    (h : instantiate_node node name = .ok (b, ws)) :
    b.class_name = effective_class node name ∧
    b.name = effective_name node name ∧
    b.props = resolvedProps (effective_class node name) node.properties ∧
    b.children.length = node.children.length ∧
    ∃ extra,
      ws = propWarnings (effective_class node name) node.properties
             ++ extra := by
  cases node with
  | mk cn props kids =>
    cases cn with
    | none =>
      rw [instantiate_node_eq_none] at h
      exact instantiate_node_spec_some _ _ _ _ _ _ h
    | some cls =>
      exact instantiate_node_spec_some _ _ _ _ _ _ h

theorem sizeOf_child_lt {key : String} {child : ProjectNode}
    {kids : List (String × ProjectNode)} (cn : Option String)
    (props : List (String × RawValue)) (h : (key, child) ∈ kids) :
    sizeOf child < sizeOf (ProjectNode.mk cn props kids) := by
  have h1 := List.sizeOf_lt_of_mem h
  simp only [Prod.mk.sizeOf_spec] at h1
  simp only [ProjectNode.mk.sizeOf_spec]
  omega

theorem sizeOf_mem_children_lt {c b : InstanceBuilder}
    (h : c ∈ b.children) : sizeOf c < sizeOf b := by
  cases b with
  | mk cn n p k =>
    have h1 : sizeOf c < sizeOf k := List.sizeOf_lt_of_mem h
    simp only [InstanceBuilder.mk.sizeOf_spec]
    omega

theorem self_not_mem_children (b : InstanceBuilder) : b ∉ b.children :=
  fun h => absurd (sizeOf_mem_children_lt h) (lt_irrefl _)

theorem propWarnings_shape (c : String) (l : List (String × RawValue))
    (w : Warning) (hw : w ∈ propWarnings c l) :
    w.isChildFailed = false ∧ w.concernsProp "Name" = false := by
  simp only [propWarnings, List.mem_filterMap] at hw
  obtain ⟨⟨k0, v0⟩, hmem, hf⟩ := hw
  by_cases hk : k0 = "Name"
  · simp [hk] at hf
  · cases hr : resolve v0 c k0 with
    | ok v => simp [hk, hr] at hf
    | error e =>
      simp [hk, hr] at hf
      subst hf
      simp [Warning.isChildFailed, Warning.concernsProp, hk]

theorem resolvedProps_mem_of {c : String} {l : List (String × RawValue)}
    {k : String} {v : RawValue} {var : Variant}
    (hmem : (k, v) ∈ l) (hk : k ≠ "Name") (hr : resolve v c k = .ok var) :
    (k, var) ∈ resolvedProps c l := by
  simp only [resolvedProps, List.mem_filterMap]
  exact ⟨(k, v), hmem, by simp [hk, hr]⟩

theorem mem_resolvedProps {c : String} {l : List (String × RawValue)}
    {k : String} {var : Variant} (h : (k, var) ∈ resolvedProps c l) :
    ∃ v, (k, v) ∈ l ∧ k ≠ "Name" ∧ resolve v c k = .ok var := by
  simp only [resolvedProps, List.mem_filterMap] at h
  obtain ⟨⟨k0, v0⟩, hmem, hf⟩ := h
  by_cases hk : k0 = "Name"
  · simp [hk] at hf
  · cases hr : resolve v0 c k0 with
    | ok vr =>
      simp [hk, hr] at hf
      obtain ⟨hk1, hv1⟩ := hf
      subst hk1
      exact ⟨v0, hmem, hk, by rw [hr, hv1]⟩
    | error e => simp [hk, hr] at hf

theorem propWarnings_mem_of {c : String} {l : List (String × RawValue)}
    {k : String} {v : RawValue} {e : ResolutionError}
    (hmem : (k, v) ∈ l) (hk : k ≠ "Name") (hr : resolve v c k = .error e) :
    Warning.propertyFailed c k e ∈ propWarnings c l := by
  simp only [propWarnings, List.mem_filterMap]
  exact ⟨(k, v), hmem, by simp [hk, hr]⟩

theorem lookup_unique_of_nodup {α : Type} {l : List (String × α)}
    (hnd : (l.map Prod.fst).Nodup) {k : String} {v v' : α}
    (h1 : (k, v) ∈ l) (h2 : (k, v') ∈ l) : v = v' := by
  induction l with
  | nil => cases h1
  | cons kv rest ih =>
    obtain ⟨k0, v0⟩ := kv
    simp only [List.map_cons, List.nodup_cons] at hnd
    rcases List.mem_cons.mp h1 with e1 | m1 <;>
      rcases List.mem_cons.mp h2 with e2 | m2
    · rw [← e2] at e1
      exact congrArg Prod.snd e1
    · exfalso
      have hk0 : k = k0 := congrArg Prod.fst e1
      exact hnd.1 (hk0 ▸ List.mem_map_of_mem Prod.fst m2)
    · exfalso
      have hk0 : k = k0 := congrArg Prod.fst e2
      exact hnd.1 (hk0 ▸ List.mem_map_of_mem Prod.fst m1)
    · exact ih hnd.2 m1 m2

theorem instantiate_children_warning_mem
    (kids : List (String × ProjectNode)) (b : InstanceBuilder)
    (ws : List Warning) (w : Warning)
    (hw : w ∈ (instantiate_children kids b ws).2) :
    w ∈ ws ∨ ∃ key child cb cws, (key, child) ∈ kids ∧
      instantiate_node child key = .ok (cb, cws) ∧ w ∈ cws := by
  induction kids generalizing b ws with
  | nil =>
    simp only [instantiate_children] at hw
    exact .inl hw
  | cons kv rest ih =>
    obtain ⟨cname, cnode⟩ := kv
    obtain ⟨⟨cb, cws⟩, hok⟩ := instantiate_node_isOk cnode cname
    simp only [instantiate_children, hok] at hw
    rcases ih _ _ hw with hin | ⟨key, child, cb', cws', hmem, hok', hwin⟩
    · rcases List.mem_append.mp hin with h1 | h2
      · exact .inl h1
      · exact .inr ⟨cname, cnode, cb, cws,
          List.mem_cons.mpr (.inl rfl), hok, h2⟩
    · exact .inr ⟨key, child, cb', cws',
        List.mem_cons.mpr (.inr hmem), hok', hwin⟩

theorem warnings_shape_aux (fuel : ℕ) (node : ProjectNode) (name : String)
    (b : InstanceBuilder) (ws : List Warning)
    (hfuel : sizeOf node ≤ fuel)
    (h : instantiate_node node name = .ok (b, ws)) :
    ∀ w ∈ ws, w.isChildFailed = false ∧ w.concernsProp "Name" = false := by
  induction fuel generalizing node name b ws with
  | zero =>
    exfalso
    cases node with
    | mk cn props kids =>
      simp only [ProjectNode.mk.sizeOf_spec] at hfuel
      omega
  | succ fuel ih =>
    cases node with
    | mk cn props kids =>
      obtain ⟨c, hred⟩ : ∃ c, instantiate_node (.mk cn props kids) name =
          instantiate_node (.mk (some c) props kids) name := by
        cases cn with
        | none => exact ⟨_, instantiate_node_eq_none name props kids⟩
        | some c => exact ⟨c, rfl⟩
      rw [hred, instantiate_node_eq] at h
      have h' := Except.ok.inj h
      have hwseq : (instantiate_children kids
          (addProps c props ((InstanceBuilder.new c).with_name
            ((instance_name_override props).getD name)) []).1
          (addProps c props ((InstanceBuilder.new c).with_name
            ((instance_name_override props).getD name)) []).2).2 = ws :=
        congrArg Prod.snd h'
      intro w hwmem
      rw [← hwseq] at hwmem
      rcases instantiate_children_warning_mem _ _ _ _ hwmem with
        hin | ⟨key, child, cb, cws, hmem, hok, hwin⟩
      · have hA := congrArg Prod.snd (addProps_spec c props
          ((InstanceBuilder.new c).with_name
            ((instance_name_override props).getD name)) [])
        rw [hA] at hin
        exact propWarnings_shape c props w (by simpa using hin)
      · have hlt := @sizeOf_child_lt key child kids cn props hmem
        have hsz : sizeOf child ≤ fuel := by omega
        exact ih child key cb cws hsz hok w hwin

theorem instantiate_node_warnings (node : ProjectNode) (name : String)
    (b : InstanceBuilder) (ws : List Warning)
    (h : instantiate_node node name = .ok (b, ws)) :
    ∀ w ∈ ws, w.isChildFailed = false ∧ w.concernsProp "Name" = false :=
  warnings_shape_aux (sizeOf node) node name b ws le_rfl h

theorem instantiate_children_names (kids : List (String × ProjectNode))
    (b : InstanceBuilder) (ws : List Warning) :
    (instantiate_children kids b ws).1.children.map InstanceBuilder.name
      = b.children.map InstanceBuilder.name
        ++ kids.map fun p => effective_name p.2 p.1 := by
  induction kids generalizing b ws with
  | nil => simp [instantiate_children]
  | cons kv rest ih =>
    obtain ⟨cname, cnode⟩ := kv
    obtain ⟨⟨cb, cws⟩, hok⟩ := instantiate_node_isOk cnode cname
    have hname : cb.name = effective_name cnode cname :=
      (instantiate_node_spec _ _ _ _ hok).2.1
    simp only [instantiate_children, hok]
    rw [ih]
    simp [InstanceBuilder.with_child, hname]

/-! Claim theorems. -/

/-- C1: when the property map of a node has a `"Name"` entry that resolves
unambiguously to a string, the effective name of the built instance is that
string (not the structural key), and the instance carries exactly one name
entry: `"Name"` never also appears among the generic properties. -/
theorem C1_name_override (node : ProjectNode) (key s : String)
    (v : RawValue) (b : InstanceBuilder) (ws : List Warning)
    (hv : node.properties.lookup "Name" = some v)
    (hs : resolve_unambiguous v = .ok (.str s))
    (hb : instantiate_node node key = .ok (b, ws)) :
    b.name = s ∧ "Name" ∉ b.props.map Prod.fst := by
  obtain ⟨_, hname, hprops, _, _⟩ := instantiate_node_spec node key b ws hb
  constructor
  · rw [hname]
    simp [effective_name, instance_name_override, hv, hs]
  · rw [hprops]
    intro hmem
    obtain ⟨⟨kk, var⟩, hmem2, hfst⟩ := List.mem_map.mp hmem
    obtain ⟨v2, _, hkne, _⟩ := mem_resolvedProps hmem2
    exact hkne hfst

/-- Witness for C1 at a concrete node: key `"Key"`, `Name` property
`"Custom"` — the builder is named `"Custom"` with no generic `Name`
property. -/
theorem C1_witness :
    (ProjectNode.mk none [("Name", RawValue.str "Custom")] []).properties.lookup
        "Name" = some (RawValue.str "Custom") ∧
    resolve_unambiguous (RawValue.str "Custom")
        = .ok (.str "Custom") ∧
    ((⟨"Folder", "Custom", [], []⟩ : InstanceBuilder).name = "Custom" ∧
      "Name" ∉ (⟨"Folder", "Custom", [], []⟩ : InstanceBuilder).props.map
        Prod.fst) :=
  ⟨rfl, rfl,
    C1_name_override (.mk none [("Name", RawValue.str "Custom")] []) "Key"
      "Custom" (RawValue.str "Custom") _ _ rfl rfl rfl⟩

/-- C2: when the class of the resolved root is `"DataModel"`, the list handed to
the encoder is exactly the direct children of the root (never containing the
root itself); for any other root class the root is the sole top-level
entry. -/
theorem C2_root_emission (p : Project) (root : InstanceBuilder)
    (ws : List Warning)
    (h : instantiate p.tree (p.name.getD "ROOT") = .ok (root, ws)) :
    (root.class_name = "DataModel" →
      ids_to_write root = root.children ∧ root ∉ ids_to_write root) ∧
    (root.class_name ≠ "DataModel" → ids_to_write root = [root]) := by
  constructor
  · intro hc
    refine ⟨by simp [ids_to_write, hc], ?_⟩
    simp only [ids_to_write, if_pos hc]
    exact self_not_mem_children root
  · intro hc
    simp [ids_to_write, hc]

/-- Witness for C2 at a concrete place-file project: a `DataModel` root
with one `Workspace` child — the encoder list is the child alone. -/
theorem C2_witness :
    instantiate (ProjectNode.mk (some "DataModel") []
        [("Workspace", .mk (some "Workspace") [] [])]) "Place"
      = .ok (⟨"DataModel", "Place", [],
          [⟨"Workspace", "Workspace", [], []⟩]⟩, []) ∧
    (ids_to_write
        ⟨"DataModel", "Place", [], [⟨"Workspace", "Workspace", [], []⟩]⟩
      = [⟨"Workspace", "Workspace", [], []⟩] ∧
      (⟨"DataModel", "Place", [], [⟨"Workspace", "Workspace", [], []⟩]⟩ :
          InstanceBuilder) ∉
        ids_to_write
          ⟨"DataModel", "Place", [],
            [⟨"Workspace", "Workspace", [], []⟩]⟩) :=
  ⟨rfl,
    (C2_root_emission
      ⟨some "Place", .mk (some "DataModel") []
        [("Workspace", .mk (some "Workspace") [] [])]⟩
      _ [] rfl).1 rfl⟩

/-- C3: the effective class of every node follows the three-step rule —
the explicit `$className` if present, else the static name-inference
table entry for the structural key, else `"Folder"`. -/
theorem C3_effective_class (node : ProjectNode) (name : String)
    (b : InstanceBuilder) (ws : List Warning)
    (h : instantiate_node node name = .ok (b, ws)) :
    b.class_name
      = node.class_name.getD ((infer_class_from_name name).getD "Folder") :=
  (instantiate_node_spec node name b ws h).1

/-- Witness for C3 at a concrete node: no explicit class under key
`"Workspace"` — the table supplies the class `"Workspace"`. -/
theorem C3_witness :
    instantiate_node (.mk none [] []) "Workspace"
      = .ok (⟨"Workspace", "Workspace", [], []⟩, []) ∧
    (⟨"Workspace", "Workspace", [], []⟩ : InstanceBuilder).class_name
      = (ProjectNode.mk none [] []).class_name.getD
          ((infer_class_from_name "Workspace").getD "Folder") :=
  ⟨rfl, C3_effective_class (.mk none [] []) "Workspace" _ _ rfl⟩

/-- C4: a non-`Name` property whose resolution fails is omitted from the
built instance, a warning identifying (class, property, reason) is
emitted, and every other resolvable property and every child of the node
is still processed. -/
theorem C4_bad_property_skipped (node : ProjectNode) (name k : String)
    (v : RawValue) (e : ResolutionError) (b : InstanceBuilder)
    (ws : List Warning)
    (hnd : (node.properties.map Prod.fst).Nodup)
    (hk : (k, v) ∈ node.properties) (hkn : k ≠ "Name")
    (he : resolve v (effective_class node name) k = .error e)
    (hb : instantiate_node node name = .ok (b, ws)) :
    k ∉ b.props.map Prod.fst ∧
    Warning.propertyFailed (effective_class node name) k e ∈ ws ∧
    (∀ k' v' var, (k', v') ∈ node.properties → k' ≠ "Name" →
      resolve v' (effective_class node name) k' = .ok var →
      (k', var) ∈ b.props) ∧
    b.children.length = node.children.length := by
  obtain ⟨_, _, hprops, hlen, extra, hws⟩ :=
    instantiate_node_spec node name b ws hb
  refine ⟨?_, ?_, ?_, hlen⟩
  · rw [hprops]
    intro hmem
    obtain ⟨⟨kk, var⟩, hmem2, hfst⟩ := List.mem_map.mp hmem
    obtain ⟨v2, hv2mem, _, hres⟩ := mem_resolvedProps hmem2
    subst hfst
    have hveq : v2 = v := lookup_unique_of_nodup hnd hv2mem hk
    rw [hveq] at hres
    rw [hres] at he
    exact Except.noConfusion he
  · rw [hws]
    exact List.mem_append.mpr (.inl (propWarnings_mem_of hk hkn he))
  · intro k' v' var hmem' hkn' hres'
    rw [hprops]
    exact resolvedProps_mem_of hmem' hkn' hres'

/-- Witness for C4 at a concrete node: a `Part` whose `Anchored` receives a
string (a type mismatch) next to a good `Transparency` and one child — the
bad property is dropped with a warning, the rest builds. -/
theorem C4_witness :
    ((ProjectNode.mk (some "Part")
        [("Anchored", RawValue.str "yes"), ("Transparency", RawValue.num (1/2))]
        [("Kid", .mk none [] [])]).properties.map Prod.fst).Nodup ∧
    resolve (RawValue.str "yes")
        (effective_class (ProjectNode.mk (some "Part")
          [("Anchored", RawValue.str "yes"),
            ("Transparency", RawValue.num (1/2))]
          [("Kid", .mk none [] [])]) "N") "Anchored"
      = .error .typeMismatch ∧
    ("Anchored" ∉
        ([("Transparency", Variant.float (1/2))] :
          List (String × Variant)).map Prod.fst ∧
      Warning.propertyFailed "Part" "Anchored" .typeMismatch ∈
        ([Warning.propertyFailed "Part" "Anchored" .typeMismatch] :
          List Warning) ∧
      ([⟨"Folder", "Kid", [], []⟩] : List InstanceBuilder).length
        = 1) := by
  have hmain := C4_bad_property_skipped
    (.mk (some "Part")
      [("Anchored", RawValue.str "yes"), ("Transparency", RawValue.num (1/2))]
      [("Kid", .mk none [] [])]) "N" "Anchored" (RawValue.str "yes")
    .typeMismatch
    ⟨"Part", "N", [("Transparency", Variant.float (1/2))],
      [⟨"Folder", "Kid", [], []⟩]⟩
    [Warning.propertyFailed "Part" "Anchored" .typeMismatch]
    (by decide) (List.mem_cons_self _ _) (by decide) rfl rfl
  exact ⟨by decide, rfl, hmain.1, hmain.2.1, rfl⟩

/-- C9 fails as stated: the source still has a fatal path after JSON
parsing — the encoding stage (`to_writer_default?`, `String::from_utf8?`)
can fail and its error bubbles out of `main` for a nonzero exit.  Here a
run whose parse succeeded (the parser and builder stages both ran) exits 1
because the encoder failed. -/
theorem C9_counterexample :
    (main_run (fun _ => .ok ⟨some "T", .mk (some "Folder") [] []⟩)
        (fun _ => .error "encode failed") ⟨some "x", true, ""⟩).exit_code
      = 1 ∧
    (main_run (fun _ => .ok ⟨some "T", .mk (some "Folder") [] []⟩)
        (fun _ => .error "encode failed") ⟨some "x", true, ""⟩).events
      = [.parserInvoked, .instantiateInvoked, .encoderInvoked] ∧
    (main_run (fun _ => .ok ⟨some "T", .mk (some "Folder") [] []⟩)
        (fun _ => .error "encode failed") ⟨some "x", true, ""⟩).stderr
      = ["encode failed"] :=
  ⟨rfl, by decide, rfl⟩

/-- C9 amended: `instantiate_node` always returns `Ok` — no per-child
construction can fail, so the child-failure warning branch is unreachable
(no emitted warning is ever the child-failure warning) — and tree
construction contributes no fatal error: after JSON parsing succeeds, the
run exits zero whenever the external encoding stage succeeds, and any
nonzero exit is attributable solely to an encoder error. -/
theorem C9_build_total :
    (∀ (node : ProjectNode) (name : String),
      ∃ b ws, instantiate_node node name = .ok (b, ws) ∧
        ∀ w ∈ ws, w.isChildFailed = false) ∧
    (∀ (parse : String → Except String Project)
        (encode : List InstanceBuilder → Except String String)
        (env : CliEnv) (input : String) (project : Project),
      get_input env = some input → is_blank input = false →
      parse input = .ok project →
      ((∀ ids, ∃ xml, encode ids = .ok xml) →
        (main_run parse encode env).exit_code = 0) ∧
      ((main_run parse encode env).exit_code ≠ 0 →
        ∃ root ws e,
          instantiate project.tree (project.name.getD "ROOT")
            = .ok (root, ws) ∧
          encode (ids_to_write root) = .error e ∧
          (main_run parse encode env).stderr = [e])) := by
  constructor
  · intro node name
    obtain ⟨⟨b, ws⟩, hok⟩ := instantiate_node_isOk node name
    exact ⟨b, ws, hok,
      fun w hw => (instantiate_node_warnings node name b ws hok w hw).1⟩
  · intro parse encode env input project hin htrim hparse
    obtain ⟨⟨root, ws⟩, hok⟩ :=
      instantiate_node_isOk project.tree (project.name.getD "ROOT")
    constructor
    · intro henc
      obtain ⟨xml, hx⟩ := henc (ids_to_write root)
      simp [main_run, hin, htrim, hparse, instantiate, hok, hx]
    · intro hne
      cases hx : encode (ids_to_write root) with
      | ok xml =>
        exfalso
        apply hne
        simp [main_run, hin, htrim, hparse, instantiate, hok, hx]
      | error e =>
        refine ⟨root, ws, e, hok, hx, ?_⟩
        simp [main_run, hin, htrim, hparse, instantiate, hok, hx]

/-- Witness for the amended C9 at a concrete run: a fixed parser, a
succeeding encoder and argument input — the run exits zero. -/
theorem C9_witness :
    (main_run (fun _ => .ok ⟨some "T", .mk (some "Folder") [] []⟩)
        (fun _ => .ok "xml") ⟨some "x", true, ""⟩).exit_code = 0 :=
  ((C9_build_total.2 (fun _ => .ok ⟨some "T", .mk (some "Folder") [] []⟩)
      (fun _ => .ok "xml") ⟨some "x", true, ""⟩ "x"
      ⟨some "T", .mk (some "Folder") [] []⟩ rfl (by decide) rfl).1)
    (fun ids => ⟨"xml", rfl⟩)

/-- C10: a `"Name"` entry that does not resolve unambiguously to a string
is silently dropped — the instance keeps the structural key as its name,
`"Name"` is never attached as a generic property, and no warning about a
property called `"Name"` is ever emitted. -/
theorem C10_name_entry_dropped (node : ProjectNode) (key : String)
    (v : RawValue) (b : InstanceBuilder) (ws : List Warning)
    (hv : node.properties.lookup "Name" = some v)
    (hns : ∀ s, resolve_unambiguous v ≠ .ok (.str s))
    (hb : instantiate_node node key = .ok (b, ws)) :
    b.name = key ∧ "Name" ∉ b.props.map Prod.fst ∧
    ∀ w ∈ ws, w.concernsProp "Name" = false := by
  obtain ⟨_, hname, hprops, _, _⟩ := instantiate_node_spec node key b ws hb
  refine ⟨?_, ?_, ?_⟩
  · rw [hname]
    have hov : instance_name_override node.properties = none := by
      have hstep : instance_name_override node.properties
          = match resolve_unambiguous v with
            | .ok (.str s) => some s
            | _ => none := by
        unfold instance_name_override
        rw [hv]
        rfl
      rw [hstep]
      cases hr : resolve_unambiguous v with
      | error e => rfl
      | ok var =>
        cases var with
        | str s => exact absurd hr (hns s)
        | bool x => rfl
        | int x => rfl
        | float x => rfl
        | vector3 x y z => rfl
        | color3 x y z => rfl
        | rotation x y z l => rfl
        | enumToken x => rfl
        | reference x => rfl
    simp [effective_name, hov]
  · rw [hprops]
    intro hmem
    obtain ⟨⟨kk, var⟩, hmem2, hfst⟩ := List.mem_map.mp hmem
    obtain ⟨v2, _, hkne, _⟩ := mem_resolvedProps hmem2
    exact hkne hfst
  · intro w hw
    exact (instantiate_node_warnings node key b ws hb w hw).2

/-- Witness for C10 at a concrete node: a `Name` entry holding a numeric
sequence (not unambiguously a string) under key `"Key"` — the key is kept,
nothing extra is attached, no warning appears. -/
theorem C10_witness :
    (ProjectNode.mk none [("Name", RawValue.seqNum [1])] []).properties.lookup
        "Name" = some (RawValue.seqNum [1]) ∧
    ((⟨"Folder", "Key", [], []⟩ : InstanceBuilder).name = "Key" ∧
      "Name" ∉ (⟨"Folder", "Key", [], []⟩ : InstanceBuilder).props.map
        Prod.fst ∧
      ∀ w ∈ ([] : List Warning), w.concernsProp "Name" = false) :=
  ⟨rfl,
    C10_name_entry_dropped (.mk none [("Name", RawValue.seqNum [1])] [])
      "Key" (RawValue.seqNum [1]) _ _ rfl
      (fun s h => by simp [resolve_unambiguous] at h) rfl⟩

/-- C5 fails as stated: in a complete successful build the finalize stage
is invoked zero times, not exactly once — `main` runs parse, instantiate
and encode and contains no reference-resolution second pass at all. -/
theorem C5_counterexample :
    (main_run (fun _ => .ok ⟨some "T", .mk (some "Folder") [] []⟩)
        (fun _ => .ok "xml") ⟨some "in", true, ""⟩).exit_code = 0 ∧
    (main_run (fun _ => .ok ⟨some "T", .mk (some "Folder") [] []⟩)
        (fun _ => .ok "xml") ⟨some "in", true, ""⟩).events
      = [.parserInvoked, .instantiateInvoked, .encoderInvoked] ∧
    (main_run (fun _ => .ok ⟨some "T", .mk (some "Folder") [] []⟩)
        (fun _ => .ok "xml")
        ⟨some "in", true, ""⟩).events.count .finalizeInvoked = 0 :=
  ⟨rfl, by decide, by decide⟩

/-- C5 amended: the build is a single walk with no second pass — in every
run, the count of finalize invocations is zero. -/
theorem C5_no_finalize (parse : String → Except String Project)
    (encode : List InstanceBuilder → Except String String)
    (env : CliEnv) :
    (main_run parse encode env).events.count .finalizeInvoked = 0 := by
  cases hg : get_input env with
  | none => simp [main_run, hg]
  | some input =>
    by_cases ht : is_blank input
    · simp [main_run, hg, ht]
    · cases hp : parse input with
      | error e => simp [main_run, hg, ht, hp, List.count_cons]
      | ok project =>
        obtain ⟨⟨root, ws⟩, hok⟩ :=
          instantiate_node_isOk project.tree (project.name.getD "ROOT")
        cases hx : encode (ids_to_write root) with
        | error e =>
          simp [main_run, hg, ht, hp, instantiate, hok, hx, List.count_cons]
        | ok xml =>
          simp [main_run, hg, ht, hp, instantiate, hok, hx, List.count_cons]

/-- C6 fails as stated: the child collections are hash maps, and the
builder emits children in the iteration order of the map; the same document
(the same set of child entries, here related by a permutation) presented
in two different iteration orders yields two different sibling orders. -/
theorem C6_counterexample :
    (ProjectNode.mk (some "Folder") []
        [("A", .mk (some "Folder") [] []),
          ("B", .mk (some "Folder") [] [])]).children.Perm
      (ProjectNode.mk (some "Folder") []
        [("B", .mk (some "Folder") [] []),
          ("A", .mk (some "Folder") [] [])]).children ∧
    (instantiate_node (.mk (some "Folder") []
        [("A", .mk (some "Folder") [] []),
          ("B", .mk (some "Folder") [] [])]) "R").map
      (fun p => p.1.children.map InstanceBuilder.name) = .ok ["A", "B"] ∧
    (instantiate_node (.mk (some "Folder") []
        [("B", .mk (some "Folder") [] []),
          ("A", .mk (some "Folder") [] [])]) "R").map
      (fun p => p.1.children.map InstanceBuilder.name) = .ok ["B", "A"] ∧
    (["A", "B"] : List String) ≠ ["B", "A"] :=
  ⟨List.Perm.swap _ _ _, rfl, rfl, by decide⟩

/-- C6 amended: the built tree lists the children of each node exactly in the
order the child map is iterated (one per entry, under its effective name);
for the hash maps of the source that iteration order is unspecified, so input
textual order — and hence cross-run determinism — is not guaranteed. -/
theorem C6_sibling_order (node : ProjectNode) (name : String)
    (b : InstanceBuilder) (ws : List Warning)
    (h : instantiate_node node name = .ok (b, ws)) :
    b.children.map InstanceBuilder.name
      = node.children.map fun p => effective_name p.2 p.1 := by
  cases node with
  | mk cn props kids =>
    obtain ⟨c, hred⟩ : ∃ c, instantiate_node (.mk cn props kids) name =
        instantiate_node (.mk (some c) props kids) name := by
      cases cn with
      | none => exact ⟨_, instantiate_node_eq_none name props kids⟩
      | some c => exact ⟨c, rfl⟩
    rw [hred, instantiate_node_eq] at h
    have hb : (instantiate_children kids
        (addProps c props ((InstanceBuilder.new c).with_name
          ((instance_name_override props).getD name)) []).1
        (addProps c props ((InstanceBuilder.new c).with_name
          ((instance_name_override props).getD name)) []).2).1 = b :=
      congrArg Prod.fst (Except.ok.inj h)
    rw [← hb, instantiate_children_names]
    have hch : (addProps c props ((InstanceBuilder.new c).with_name
        ((instance_name_override props).getD name)) []).1.children = [] := by
      rw [congrArg Prod.fst (addProps_spec c props _ [])]
      simp [InstanceBuilder.new, InstanceBuilder.with_name]
    rw [hch]
    simp [ProjectNode.children]

/-- Witness for the amended C6 at a concrete node with children
`A` then `B` in iteration order: the sibling names come out as
`A` then `B`. -/
theorem C6_witness :
    ([⟨"Folder", "A", [], []⟩, ⟨"Folder", "B", [], []⟩] :
        List InstanceBuilder).map InstanceBuilder.name
      = (ProjectNode.mk (some "Folder") []
          [("A", .mk (some "Folder") [] []),
            ("B", .mk (some "Folder") [] [])]).children.map
          (fun p => effective_name p.2 p.1) :=
  C6_sibling_order
    (.mk (some "Folder") []
      [("A", .mk (some "Folder") [] []), ("B", .mk (some "Folder") [] [])])
    "R"
    ⟨"Folder", "R", [], [⟨"Folder", "A", [], []⟩, ⟨"Folder", "B", [], []⟩]⟩
    [] rfl

/-- C7 fails as stated: on blank input the process does exit nonzero
without touching the core, but it prints only the empty-input error line —
the usage message is printed only in the missing-input branch. -/
theorem C7_counterexample :
    (main_run (fun _ => .error "unused") (fun _ => .ok "xml")
        ⟨some " ", true, ""⟩).exit_code = 1 ∧
    (main_run (fun _ => .error "unused") (fun _ => .ok "xml")
        ⟨some " ", true, ""⟩).stderr = [emptyMsg] ∧
    usageMsg ∉
      (main_run (fun _ => .error "unused") (fun _ => .ok "xml")
        ⟨some " ", true, ""⟩).stderr ∧
    (main_run (fun _ => .error "unused") (fun _ => .ok "xml")
        ⟨some " ", true, ""⟩).events = [] := by
  refine ⟨by decide, by decide, ?_, by decide⟩
  intro hmem
  have : usageMsg ∈ [emptyMsg] := by
    have he : (main_run (fun _ => .error "unused") (fun _ => .ok "xml")
        ⟨some " ", true, ""⟩).stderr = [emptyMsg] := by decide
    rw [he] at hmem
    exact hmem
  simp [usageMsg, emptyMsg] at this

/-- C7 amended: missing input exits 1 printing the usage message; blank
input exits 1 printing the empty-input error (without the usage message);
in both cases no pipeline stage runs, and any stage runs only once
non-blank input text was obtained. -/
theorem C7_input_gate (parse : String → Except String Project)
    (encode : List InstanceBuilder → Except String String)
    (env : CliEnv) :
    (get_input env = none →
      (main_run parse encode env).exit_code = 1 ∧
      (main_run parse encode env).stderr = [noInputMsg, usageMsg] ∧
      (main_run parse encode env).events = []) ∧
    (∀ input, get_input env = some input → is_blank input = true →
      (main_run parse encode env).exit_code = 1 ∧
      (main_run parse encode env).stderr = [emptyMsg] ∧
      (main_run parse encode env).events = []) ∧
    ((main_run parse encode env).events ≠ [] →
      ∃ input, get_input env = some input ∧ is_blank input = false) := by
  refine ⟨?_, ?_, ?_⟩
  · intro h
    simp [main_run, h]
  · intro input h ht
    simp [main_run, h, ht]
  · intro hne
    cases hg : get_input env with
    | none =>
      exfalso
      apply hne
      simp [main_run, hg]
    | some input =>
      by_cases ht : is_blank input
      · exfalso
        apply hne
        simp [main_run, hg, ht]
      · exact ⟨input, rfl, by simpa using ht⟩

/-- Witness for the amended C7 at a concrete environment with no argument
and a terminal stdin: exit code 1 and the usage message. -/
theorem C7_witness :
    (main_run (fun _ => .error "x") (fun _ => .ok "xml")
        ⟨none, true, ""⟩).exit_code = 1 ∧
    (main_run (fun _ => .error "x") (fun _ => .ok "xml")
        ⟨none, true, ""⟩).stderr = [noInputMsg, usageMsg] ∧
    (main_run (fun _ => .error "x") (fun _ => .ok "xml")
        ⟨none, true, ""⟩).events = [] :=
  (C7_input_gate (fun _ => .error "x") (fun _ => .ok "xml")
    ⟨none, true, ""⟩).1 rfl

/-- C8: a 3-element numeric sequence resolved against a Color3-typed
property yields channels `round(clamp(v,0,1) * 255)` under
round-half-away-from-zero, each an integer in `[0, 255]`. -/
theorem C8_color3_channels (className propName : String) (x y z : ℚ)
    (h : schemaLookup className propName = some .color3) :
    resolve (.seqNum [x, y, z]) className propName
      = .ok (.color3 (color3Channel x) (color3Channel y)
          (color3Channel z)) ∧
    ∀ q : ℚ, (color3Channel q : ℤ) = roundHalfAway (clamp01 q * 255) ∧
      color3Channel q ≤ 255 := by
  constructor
  · simp [resolve, h]
  · intro q
    have h0 : (0 : ℚ) ≤ clamp01 q := le_max_left 0 _
    have h1 : clamp01 q ≤ 1 := max_le (by norm_num) (min_le_left 1 q)
    have hm : (0 : ℚ) ≤ clamp01 q * 255 := by positivity
    have hM : clamp01 q * 255 ≤ 255 := by nlinarith
    have hr : roundHalfAway (clamp01 q * 255)
        = ⌊clamp01 q * 255 + 1/2⌋ := by
      rw [roundHalfAway, if_pos hm]
    have hge : 0 ≤ ⌊clamp01 q * 255 + 1/2⌋ := by
      apply Int.le_floor.mpr
      push_cast
      linarith
    have hlt : ⌊clamp01 q * 255 + 1/2⌋ < 256 := by
      have hfl := Int.floor_le (clamp01 q * 255 + 1/2)
      have hq : (⌊clamp01 q * 255 + 1/2⌋ : ℚ) < 256 := by linarith
      exact_mod_cast hq
    have hge' : 0 ≤ roundHalfAway (clamp01 q * 255) := by
      rw [hr]; exact hge
    refine ⟨?_, ?_⟩
    · rw [color3Channel]
      exact Int.toNat_of_nonneg hge'
    · rw [color3Channel]
      apply Int.toNat_le.mpr
      rw [hr]
      omega

/-- Witness for C8 at the concrete scenario from the spec: `[1, 0.5, 0.25]`
against `Part.Color` gives channels (255, 128, 64). -/
theorem C8_witness :
    schemaLookup "Part" "Color" = some .color3 ∧
    resolve (.seqNum [1, 1/2, 1/4]) "Part" "Color"
      = .ok (.color3 (color3Channel 1) (color3Channel (1/2))
          (color3Channel (1/4))) ∧
    color3Channel 1 = 255 ∧ color3Channel (1/2) = 128 ∧
    color3Channel (1/4) = 64 :=
  ⟨rfl, (C8_color3_channels "Part" "Color" 1 (1/2) (1/4) rfl).1,
    by norm_num [color3Channel, clamp01, roundHalfAway]; rfl,
    by norm_num [color3Channel, clamp01, roundHalfAway]; rfl,
    by norm_num [color3Channel, clamp01, roundHalfAway]; rfl⟩

end RbxBuild
